import Mathlib

/-!
Verification of the process-execution and archive-acquisition core of
`nob.hpp`, a single-header build-automation library.

The development shallowly embeds the source:

* `Cmd` mirrors `nob::Cmd` (an ordered token list plus a working
  directory defaulting to `"."`).
* Process outcomes are embedded through `WaitStatus` (what `waitpid`
  reports about the child) and `normalize_status` (the exact
  `WIFEXITED ? WEXITSTATUS : 1` mapping both runners apply).
* The capture drain loop of `run_sync_capture` is embedded as a
  recursion over the sequence of results that successive `read` calls
  on the pipe produce (`CaptureEv`), recording the parent's actions.
* Filesystem names are embedded with the `std::filesystem::path`
  `stem`/`extension` semantics the dispatcher `extract` relies on
  (split at the last dot of the filename; a lone leading dot, `"."`
  and `".."` yield no extension).  Paths are modelled at the filename
  level, which is how the claims exercise them.
* Outcomes of the external tools the source spawns (`curl`, `tar`,
  `gunzip`, `bzip2`, `unzip`, the C++ compiler) enter as explicit
  status parameters, since they are outside the program.
-/

namespace Nob

/-- Verbosity levels, as in the source (`Quiet`, `Quieter`, `Verbose`). -/
inductive Verbosity where
  | Quiet
  | Quieter
  | Verbose
deriving DecidableEq, Repr

/-- `nob::Cmd`: an ordered argument token list `m_command` plus a working
directory `m_working_dir` whose default member initializer is `"."`. -/
structure Cmd where
  m_command : List String := []
  m_working_dir : String := "."
deriving DecidableEq, Repr

/-- `Cmd::add(args...)` emplaces every token at the back, in call order. -/
def Cmd.add (c : Cmd) (args : List String) : Cmd :=
  { c with m_command := c.m_command ++ args }

/-- `Cmd::set_wd(path)` overwrites the stored working directory; it touches
nothing but the `Cmd` object itself. -/
def Cmd.set_wd (c : Cmd) (p : String) : Cmd :=
  { c with m_working_dir := p }

/-- `Cmd::reset()` sets `m_working_dir = "."` and clears `m_command`. -/
def Cmd.reset (_ : Cmd) : Cmd :=
  { m_command := [], m_working_dir := "." }

/-- What `waitpid` reports about the terminated child: either a normal
exit with an 8-bit code (`WIFEXITED`) or death by a signal. -/
inductive WaitStatus where
  | exited (code : Nat)
  | signaled (sig : Nat)
deriving DecidableEq, Repr

/-- The status mapping both runners apply to the wait status:
`WIFEXITED(status) ? WEXITSTATUS(status) : 1`. -/
def normalize_status : WaitStatus → Nat
  | WaitStatus.exited code => code
  | WaitStatus.signaled _ => 1

/-- Actions the forked child performs between `fork` and the end of the
child branch, in program order. -/
inductive ChildAction where
  | chdir (p : String)
  | closeReadEnd
  | dupWriteToStdout
  | closeWriteEnd
  | exec (argv : List String)
deriving DecidableEq, Repr

/-- The `pid == 0` branch of `Cmd::run_sync`: when the stored working
directory differs from `"."` the child calls `fs::current_path` (a chdir)
and then `execvp`s the token list. -/
def Cmd.run_sync_child (c : Cmd) : List ChildAction :=
  (if c.m_working_dir ≠ "." then [ChildAction.chdir c.m_working_dir] else [])
    ++ [ChildAction.exec c.m_command]

/-- The `pid == 0` branch of `Cmd::run_sync_capture`: the child closes the
pipe's read end, `dup2`s the write end onto stdout, closes the write end
and `execvp`s.  The source contains no `fs::current_path` call here. -/
def Cmd.run_sync_capture_child (c : Cmd) : List ChildAction :=
  [ChildAction.closeReadEnd, ChildAction.dupWriteToStdout, ChildAction.closeWriteEnd,
   ChildAction.exec c.m_command]

/-- Whether a child action trace contains a directory change. -/
def has_chdir : List ChildAction → Bool
  | [] => false
  | ChildAction.chdir _ :: _ => true
  | _ :: rest => has_chdir rest

/-- `Cmd::run_sync`, parent side: block in `waitpid` and return the
normalized status; the child's behaviour is the action trace.  The wait
status of the child is an input, being decided by the spawned program. -/
def Cmd.run_sync (c : Cmd) (ws : WaitStatus) : Nat × List ChildAction :=
  (normalize_status ws, c.run_sync_child)

/-- The parent branch of `Cmd::run_sync` contains no `fs::current_path`
call, so the caller's working directory is returned unchanged. -/
def Cmd.run_sync_parent_cwd (_ : Cmd) (cwd : String) : String := cwd

/-- The parent branch of `Cmd::run_sync_capture` likewise never changes
the caller's working directory. -/
def Cmd.run_sync_capture_parent_cwd (_ : Cmd) (cwd : String) : String := cwd

/-- Result of one `read(pipefd[0], buffer, 4096)` call in the drain loop:
a positive byte count with the bytes read, `-1` with `errno == EINTR`,
`-1` with another errno, or `0` (end of stream). -/
inductive CaptureEv where
  | readData (bs : List Nat)
  | readEintr
  | readFatal
  | readEof
deriving DecidableEq, Repr

/-- Parent-side actions of `Cmd::run_sync_capture` after the fork. -/
inductive ParentAct where
  | readCall
  | appendOut (bs : List Nat)
  | waitChild
deriving DecidableEq, Repr

/-- The drain loop of `Cmd::run_sync_capture`, over the successive read
results: `while ((bytes_read = read(...)) != 0)` writes each chunk to the
sink, `continue`s on `EINTR`, throws on any other error (`none`), and a
zero-byte read leaves the loop.  `none` also covers a schedule that ends
without end-of-stream (the real loop would still be blocked in `read`). -/
def drain : List CaptureEv → Option (List Nat × List ParentAct)
  | [] => none
  | CaptureEv.readEof :: _ => some ([], [ParentAct.readCall])
  | CaptureEv.readData bs :: rest =>
      (drain rest).map (fun p => (bs ++ p.1, ParentAct.readCall :: ParentAct.appendOut bs :: p.2))
  | CaptureEv.readEintr :: rest =>
      (drain rest).map (fun p => (p.1, ParentAct.readCall :: p.2))
  | CaptureEv.readFatal :: _ => none

/-- `Cmd::run_sync_capture`, parent side: fully drain the pipe, then
`waitpid` and return the normalized status together with the captured
bytes and the action trace (the `waitChild` action comes after the whole
drain, exactly as in the source). -/
def Cmd.run_sync_capture (c : Cmd) (sched : List CaptureEv) (ws : WaitStatus) :
    Option (List Nat × Nat × List ParentAct) :=
  let _ := c.run_sync_capture_child
  (drain sched).map (fun p => (p.1, normalize_status ws, p.2 ++ [ParentAct.waitChild]))

/-- Bytes delivered by the data events of a read schedule, in order. -/
def dataBytes : List CaptureEv → List Nat
  | [] => []
  | CaptureEv.readData bs :: rest => bs ++ dataBytes rest
  | _ :: rest => dataBytes rest

/-- A read result the drain loop survives: data or a transient `EINTR`. -/
def benign : CaptureEv → Bool
  | CaptureEv.readData _ => true
  | CaptureEv.readEintr => true
  | _ => false

/-- Parent actions the drain loop performs on a schedule of benign events
followed by end-of-stream (the last `readCall` is the one returning 0). -/
def drainActs : List CaptureEv → List ParentAct
  | [] => [ParentAct.readCall]
  | CaptureEv.readData bs :: rest => ParentAct.readCall :: ParentAct.appendOut bs :: drainActs rest
  | CaptureEv.readEintr :: rest => ParentAct.readCall :: drainActs rest
  | _ :: rest => drainActs rest

theorem drain_append_eof (evs : List CaptureEv) (h : ∀ e ∈ evs, benign e = true) :
    drain (evs ++ [CaptureEv.readEof]) = some (dataBytes evs, drainActs evs) := by
  induction evs with
  | nil => rfl
  | cons e rest ih =>
      have he : benign e = true := h e (List.mem_cons_self e rest)
      have hrest : ∀ e ∈ rest, benign e = true := fun x hx => h x (List.mem_cons_of_mem e hx)
      cases e with
      | readData bs =>
          simp [drain, dataBytes, drainActs, ih hrest]
      | readEintr =>
          simp [drain, dataBytes, drainActs, ih hrest]
      | readFatal => simp [benign] at he
      | readEof => simp [benign] at he

theorem drainActs_no_wait (evs : List CaptureEv) : ParentAct.waitChild ∉ drainActs evs := by
  induction evs with
  | nil => simp [drainActs]
  | cons e rest ih =>
      cases e <;> simp [drainActs, ih]

/-! ### Filename stems and extensions

`extract` relies on `std::filesystem::path::extension` and `::stem`,
which split a filename at its last dot; the names `"."` and `".."`, and
a dot in the first position, give no extension. -/

/-- Split a character list at the last occurrence of `ch`: the part
before and the part after.  `none` when `ch` does not occur. -/
def splitLastChar (ch : Char) : List Char → Option (List Char × List Char)
  | [] => none
  | c :: rest =>
      match splitLastChar ch rest with
      | some (pre, post) => some (c :: pre, post)
      | none => if c = ch then some ([], rest) else none

theorem splitLastChar_eq_none (ch : Char) (l : List Char) (h : ch ∉ l) :
    splitLastChar ch l = none := by
  induction l with
  | nil => rfl
  | cons c rest ih =>
      have hc : ¬ c = ch := fun he => h (he ▸ List.mem_cons_self c rest)
      have hrest : ch ∉ rest := fun hm => h (List.mem_cons_of_mem c hm)
      simp [splitLastChar, ih hrest, hc]

theorem splitLastChar_append (ch : Char) (b e : List Char) (he : ch ∉ e) :
    splitLastChar ch (b ++ ch :: e) = some (b, e) := by
  induction b with
  | nil => simp [splitLastChar, splitLastChar_eq_none ch e he]
  | cons c b ih => simp [splitLastChar, ih]

/-- The `(stem, extension)` decomposition of a filename's characters,
following `std::filesystem::path`: split at the last dot; no split for
`"."`, `".."`, a dotless name, or a last dot in position zero. -/
def chars_split (f : List Char) : List Char × List Char :=
  if f = ['.'] ∨ f = ['.', '.'] then (f, [])
  else
    match splitLastChar '.' f with
    | none => (f, [])
    | some (pre, post) => if pre = [] then (f, []) else (pre, '.' :: post)

/-- `fs::path::extension()` on a filename. -/
def extension (f : String) : String := String.mk (chars_split f.data).2

/-- `fs::path::stem()` on a filename. -/
def stem (f : String) : String := String.mk (chars_split f.data).1

theorem string_mk_data (s : String) : String.mk s.data = s := rfl

theorem string_data_append (s t : String) : (s ++ t).data = s.data ++ t.data := rfl

theorem string_eq_of_data_eq {s t : String} (h : s.data = t.data) : s = t := by
  cases s
  cases t
  simp only at h
  rw [h]

theorem string_ne_empty_data {s : String} (h : s ≠ "") : s.data ≠ [] := by
  intro hd
  exact h (string_eq_of_data_eq (t := "") hd)

theorem chars_split_append (b e : List Char) (hb : b ≠ []) (he : e ≠ [])
    (hd : '.' ∉ e) : chars_split (b ++ '.' :: e) = (b, '.' :: e) := by
  have hlen : 2 < (b ++ '.' :: e).length := by
    have hb1 : 1 ≤ b.length := List.length_pos.mpr hb
    have he1 : 1 ≤ e.length := List.length_pos.mpr he
    simp only [List.length_append, List.length_cons]
    omega
  have hne1 : b ++ '.' :: e ≠ ['.'] := by
    intro hcontra
    rw [hcontra] at hlen
    simp at hlen
  have hne2 : b ++ '.' :: e ≠ ['.', '.'] := by
    intro hcontra
    rw [hcontra] at hlen
    simp at hlen
  unfold chars_split
  rw [if_neg (by simp [hne1, hne2]), splitLastChar_append '.' b e hd]
  simp [hb]

theorem string_append_assoc (a b c : String) : (a ++ b) ++ c = a ++ (b ++ c) := by
  apply string_eq_of_data_eq
  rw [string_data_append, string_data_append, string_data_append, string_data_append]
  exact List.append_assoc a.data b.data c.data

theorem append_ne_empty_of_right (b t : String) (ht : t ≠ "") : b ++ t ≠ "" := by
  intro hcontra
  have hd := congrArg String.data hcontra
  rw [string_data_append] at hd
  exact string_ne_empty_data ht (List.append_eq_nil.mp hd).2

/-- The one extension/stem computation the dispatcher needs: appending a
dotted, dot-free, nonempty suffix to a nonempty name makes that suffix the
extension and the name the stem. -/
theorem extension_stem_append (b : String) (e : List Char) (hb : b ≠ "")
    (he : e ≠ []) (hd : '.' ∉ e) :
    extension (b ++ String.mk ('.' :: e)) = String.mk ('.' :: e) ∧
    stem (b ++ String.mk ('.' :: e)) = b := by
  have hdata : (b ++ String.mk ('.' :: e)).data = b.data ++ '.' :: e :=
    string_data_append b (String.mk ('.' :: e))
  have hsplit := chars_split_append b.data e (string_ne_empty_data hb) he hd
  constructor
  · unfold extension
    rw [hdata, hsplit]
  · unfold stem
    rw [hdata, hsplit]

theorem ext_stem_gz (b : String) (hb : b ≠ "") :
    extension (b ++ ".gz") = ".gz" ∧ stem (b ++ ".gz") = b :=
  extension_stem_append b ['g', 'z'] hb (by decide) (by decide)

theorem ext_stem_tar (b : String) (hb : b ≠ "") :
    extension (b ++ ".tar") = ".tar" ∧ stem (b ++ ".tar") = b :=
  extension_stem_append b ['t', 'a', 'r'] hb (by decide) (by decide)

theorem ext_stem_bz2 (b : String) (hb : b ≠ "") :
    extension (b ++ ".bz2") = ".bz2" ∧ stem (b ++ ".bz2") = b :=
  extension_stem_append b ['b', 'z', '2'] hb (by decide) (by decide)

theorem ext_stem_rar (b : String) (hb : b ≠ "") :
    extension (b ++ ".rar") = ".rar" ∧ stem (b ++ ".rar") = b :=
  extension_stem_append b ['r', 'a', 'r'] hb (by decide) (by decide)

/-! ### Filesystem model and `nob::mkdir` -/

/-- A flat filesystem view: each present path is mapped to whether it is a
directory (`true`) or some other kind of file (`false`). -/
abbrev FSState := List (String × Bool)

/-- Presence and kind of a path (`fs::exists` / `fs::is_directory`). -/
def fs_lookup : FSState → String → Option Bool
  | [], _ => none
  | (q, d) :: rest, p => if q = p then some d else fs_lookup rest p

/-- `nob::mkdir`: an existing directory is accepted as-is, an existing
non-directory is a failure with no filesystem change, and an absent path
is created with `fs::create_directories` (modelled as succeeding, the
case the claims condition on). -/
def mkdir (fs : FSState) (p : String) : Bool × FSState :=
  match fs_lookup fs p with
  | some true => (true, fs)
  | some false => (false, fs)
  | none => (true, (p, true) :: fs)

/-! ### The extractors and the extension dispatcher -/

/-- `nob::extract_tar_gz`: builds `tar -x -z [-v] -f <archive>` and runs
it; the `-C <out>` destination block is commented out in the source, so
`out` is never consulted.  `status` is the spawned command's normalized
exit status; the result pairs the command built with `run_sync() == 0`. -/
def extract_tar_gz (archive : String) (out : Option String) (v : Option Verbosity)
    (status : Nat) : Cmd × Bool :=
  let _ := out
  let cmd : Cmd := { m_command := ["tar", "-x", "-z"] }
  let cmd := match v with
    | some Verbosity.Verbose => Cmd.add cmd ["-v"]
    | _ => cmd
  let cmd := Cmd.add cmd ["-f", archive]
  (cmd, status == 0)

/-- `nob::extract_tar_bz2`: `tar -x -j [-v] -f <archive> [-C <out>]`. -/
def extract_tar_bz2 (archive : String) (out : Option String) (v : Option Verbosity)
    (status : Nat) : Cmd × Bool :=
  let cmd : Cmd := { m_command := ["tar", "-x", "-j"] }
  let cmd := match v with
    | some Verbosity.Verbose => Cmd.add cmd ["-v"]
    | _ => cmd
  let cmd := Cmd.add cmd ["-f", archive]
  let cmd := match out with
    | some o => Cmd.add cmd ["-C", o]
    | none => cmd
  (cmd, status == 0)

/-- `nob::extract_bz2`: `bzip2 -d -k <file> [-v|-q]`; with a destination
it appends `-c`, opens the output file and, if that succeeds, returns the
raw `int` status of `run_sync_capture` converted to `bool` (`return
status;` in the source — true exactly when the status is non-zero); a
failed open throws (`none`).  Without a destination it returns
`run_sync() == 0`. -/
def extract_bz2 (compressed : String) (out : Option String) (v : Option Verbosity)
    (open_ok : Bool) (status : Nat) : Cmd × Option Bool :=
  let cmd : Cmd := { m_command := ["bzip2", "-d"] }
  let cmd := Cmd.add cmd ["-k", compressed]
  let cmd := match v with
    | some Verbosity.Verbose => Cmd.add cmd ["-v"]
    | some Verbosity.Quiet => Cmd.add cmd ["-q"]
    | _ => cmd
  match out with
  | some _ =>
      let cmd := Cmd.add cmd ["-c"]
      if open_ok then (cmd, some (status != 0))
      else (cmd, none)
  | none => (cmd, some (status == 0))

/-- `nob::extract_gz`: `gunzip [-v|-q] -k <file>`; the destination path
behaves exactly as in `extract_bz2`, including the `return status;`
conversion. -/
def extract_gz (compressed : String) (out : Option String) (v : Option Verbosity)
    (open_ok : Bool) (status : Nat) : Cmd × Option Bool :=
  let cmd : Cmd := { m_command := ["gunzip"] }
  let cmd := match v with
    | some Verbosity.Verbose => Cmd.add cmd ["-v"]
    | some Verbosity.Quiet => Cmd.add cmd ["-q"]
    | _ => cmd
  let cmd := Cmd.add cmd ["-k"]
  let cmd := Cmd.add cmd [compressed]
  match out with
  | some _ =>
      let cmd := Cmd.add cmd ["-c"]
      if open_ok then (cmd, some (status != 0))
      else (cmd, none)
  | none => (cmd, some (status == 0))

/-- `nob::extract_zip`: `unzip [-v|-q|-qq] <archive> [-d <out>]`. -/
def extract_zip (archive : String) (out : Option String) (v : Option Verbosity)
    (status : Nat) : Cmd × Bool :=
  let cmd : Cmd := { m_command := ["unzip"] }
  let cmd := match v with
    | some Verbosity.Verbose => Cmd.add cmd ["-v"]
    | some Verbosity.Quiet => Cmd.add cmd ["-q"]
    | some Verbosity.Quieter => Cmd.add cmd ["-qq"]
    | _ => cmd
  let cmd := Cmd.add cmd [archive]
  let cmd := match out with
    | some o => Cmd.add cmd ["-d", o]
    | none => cmd
  (cmd, status == 0)

/-- The extraction method classes `extract` dispatches to. -/
inductive Extractor where
  | tar_gz
  | tar_bz2
  | gz
  | bz2
  | zip
deriving DecidableEq, Repr

/-- A resolved dispatch: which extractor runs and with which arguments. -/
structure ExtractCall where
  ex : Extractor
  archive : String
  out : Option String
  v : Option Verbosity
deriving DecidableEq, Repr

/-- The extension dispatch of `nob::extract`: `output` defaults to
`in.stem()`; a `.gz` whose stem ends in `.tar` goes to the compressed-tar
extractor with `output.stem()`, a bare `.gz` to the plain decompressor;
likewise for `.bz2`; `.zip` to `unzip`; anything else resolves to no
extractor. -/
def extract_route (inp : String) (out : Option String) (v : Option Verbosity) :
    Option ExtractCall :=
  let output := out.getD (stem inp)
  if extension inp = ".gz" then
    (if extension (stem inp) = ".tar" then
        some ⟨Extractor.tar_gz, inp, some (stem output), v⟩
     else some ⟨Extractor.gz, inp, some output, v⟩)
  else if extension inp = ".zip" then some ⟨Extractor.zip, inp, some output, v⟩
  else if extension inp = ".bz2" then
    (if extension (stem inp) = ".tar" then
        some ⟨Extractor.tar_bz2, inp, some output, v⟩
     else some ⟨Extractor.bz2, inp, some output, v⟩)
  else none

/-- Runs the extractor a dispatch resolved to, returning its result
(`none`: the extractor threw). -/
def run_extractor (call : ExtractCall) (open_ok : Bool) (status : Nat) : Option Bool :=
  match call.ex with
  | Extractor.tar_gz => some (extract_tar_gz call.archive call.out call.v status).2
  | Extractor.tar_bz2 => some (extract_tar_bz2 call.archive call.out call.v status).2
  | Extractor.gz => (extract_gz call.archive call.out call.v open_ok status).2
  | Extractor.bz2 => (extract_bz2 call.archive call.out call.v open_ok status).2
  | Extractor.zip => some (extract_zip call.archive call.out call.v status).2

/-- `nob::extract`: resolve the extension and run the resolved extractor;
an unrecognized extension returns `false` with no extractor invoked.
`open_ok` models whether the single-file decompressors can open an
explicit destination, `status` the spawned command's normalized status. -/
def extract (inp : String) (out : Option String) (v : Option Verbosity)
    (open_ok : Bool) (status : Nat) : Option ExtractCall × Option Bool :=
  match extract_route inp out v with
  | none => (none, some false)
  | some call => (some call, run_extractor call open_ok status)

/-! ### download_and_extract and the self-rebuild trampoline -/

/-- `url.substr(url.find_last_of('/') + 1)`: the final path segment of
the URL (the whole string when it has no slash, since `npos + 1 = 0`). -/
def last_url_segment (url : String) : String :=
  match splitLastChar '/' url.data with
  | some (_, post) => String.mk post
  | none => url

/-- The observable sub-steps of `download_and_extract`, in order. -/
inductive Step where
  | downloadStep (url : String) (dest : String)
  | mkdirStep (p : String)
  | extractStep (archive : String) (out : Option String)
deriving DecidableEq, Repr

/-- `nob::download_and_extract`: derives the archive name from the URL's
final path segment and downloads to it; on download failure returns
`false` at once.  Otherwise, when a destination was given, `mkdir(*out)`
is invoked with its return value discarded, and extraction then runs on
`out.value_or(archive_path.stem().stem())` regardless.  `download_ok` is
the downloader's outcome, `fs` feeds the `mkdir` model, `open_ok` and
`status` feed `extract`. -/
def download_and_extract (url : String) (out : Option String) (v : Option Verbosity)
    (fs : FSState) (download_ok : Bool) (open_ok : Bool) (status : Nat) :
    Option Bool × List Step :=
  let archive_path := last_url_segment url
  if download_ok then
    let msteps := match out with
      | some d => ((mkdir fs d).2, [Step.mkdirStep d])
      | none => (fs, [])
    let dest := out.getD (stem (stem archive_path))
    ((extract archive_path (some dest) v open_ok status).2,
      Step.downloadStep url archive_path :: msteps.2
        ++ [Step.extractStep archive_path (some dest)])
  else (some false, [Step.downloadStep url archive_path])

/-- The recompilation command the trampoline builds:
`Cmd("c++", source_path, "-o", binary_path)`. -/
def rebuild_cmd (source_path binary_path : String) : Cmd :=
  { m_command := ["c++", source_path, "-o", binary_path] }

/-- How an invocation of the trampoline ends. -/
inductive RebuildOutcome where
  | returned
  | execed (binary : String) (argv : List String)
  | aborted
deriving DecidableEq, Repr

/-- `nob::go_rebuild_urself`: when the source's timestamp is strictly
newer than the binary's it runs the rebuild command once (the second
component lists the commands run); a non-zero status throws (aborts), a
zero status leads to `execvp(binary_path, argv)` with the original
arguments.  Otherwise nothing runs and control returns.  `rebuild_status`
is the compiler's normalized exit status. -/
def go_rebuild_urself (argv : List String) (binary_path source_path : String)
    (binary_time source_time : Nat) (rebuild_status : Nat) :
    RebuildOutcome × List Cmd :=
  if binary_time < source_time then
    if rebuild_status ≠ 0 then
      (RebuildOutcome.aborted, [rebuild_cmd source_path binary_path])
    else
      (RebuildOutcome.execed binary_path argv, [rebuild_cmd source_path binary_path])
  else (RebuildOutcome.returned, [])

/-! ## Claim theorems -/

/-- C1 (counterexample): the status `run_sync` returns for a child killed
by a signal is `1`, which is exactly the status a child exiting normally
with code 1 produces — the "sentinel" is conflated with a legitimate exit
code, refuting the claim as stated. -/
theorem run_sync_signal_status_collides_with_exit_code :
    (Cmd.run_sync { m_command := ["sh", "-c", "x"] } (WaitStatus.signaled 9)).1 = 1 ∧
    (Cmd.run_sync { m_command := ["sh", "-c", "x"] } (WaitStatus.exited 1)).1 = 1 ∧
    (1 : Nat) ≤ 255 := by
  refine ⟨rfl, rfl, by decide⟩

/-- C1 (amended): `run_sync` and `run_sync_capture` return status `N`
when the child exits normally with code `N` (0 ≤ N ≤ 255); when the child
is killed by a signal they return the fixed non-zero status `1`, which
coincides with the legitimate exit code 1 rather than being a
distinguished sentinel. -/
theorem run_sync_status_normalization (c : Cmd) (n sig : Nat) (h : n ≤ 255) :
    (Cmd.run_sync c (WaitStatus.exited n)).1 = n ∧
    Cmd.run_sync_capture c [CaptureEv.readEof] (WaitStatus.exited n)
        = some ([], n, [ParentAct.readCall, ParentAct.waitChild]) ∧
    (Cmd.run_sync c (WaitStatus.signaled sig)).1 = 1 ∧
    (Cmd.run_sync c (WaitStatus.signaled sig)).1 ≠ 0 ∧
    Cmd.run_sync_capture c [CaptureEv.readEof] (WaitStatus.signaled sig)
        = some ([], 1, [ParentAct.readCall, ParentAct.waitChild]) := by
  refine ⟨rfl, rfl, rfl, Nat.one_ne_zero, rfl⟩

theorem run_sync_status_normalization_witness :
    (Cmd.run_sync { m_command := ["true"] } (WaitStatus.exited 7)).1 = 7 ∧
    Cmd.run_sync_capture { m_command := ["true"] } [CaptureEv.readEof] (WaitStatus.exited 7)
        = some ([], 7, [ParentAct.readCall, ParentAct.waitChild]) ∧
    (Cmd.run_sync { m_command := ["true"] } (WaitStatus.signaled 9)).1 = 1 ∧
    (Cmd.run_sync { m_command := ["true"] } (WaitStatus.signaled 9)).1 ≠ 0 ∧
    Cmd.run_sync_capture { m_command := ["true"] } [CaptureEv.readEof] (WaitStatus.signaled 9)
        = some ([], 1, [ParentAct.readCall, ParentAct.waitChild]) :=
  run_sync_status_normalization { m_command := ["true"] } 7 9 (by decide)

/-- C2 (code bug): on the capture path, `extract_gz` and `extract_bz2`
end with `return status;`, converting the raw `int` exit status to
`bool`, so `extract` on a plain `.gz`/`.bz2` file with an openable
explicit destination reports failure when the decompressor exits 0 and
success when it exits non-zero — the inverse of the `run_sync() == 0`
convention every other extraction path uses. -/
theorem extract_capture_result_inverted :
    (extract "file.txt.gz" (some "file.txt") none true 0).2 = some false ∧
    (extract "file.txt.gz" (some "file.txt") none true 2).2 = some true ∧
    (extract "file.txt.bz2" (some "file.txt") none true 0).2 = some false ∧
    (extract "file.txt.bz2" (some "file.txt") none true 2).2 = some true ∧
    (extract "file.txt.gz" (some "file.txt") none true 0).1
        = some ⟨Extractor.gz, "file.txt.gz", some "file.txt", none⟩ := by
  refine ⟨rfl, rfl, rfl, rfl, rfl⟩

/-- C3: compound suffixes are tested before their single-extension
counterpart: `<base>.tar.gz` resolves to the compressed-tar extractor
(never the plain `.gz` decompressor) with derived base name `<base>`;
`<base>.bz2` with no inner `.tar` resolves to the plain decompressor with
the single suffix stripped; a `.rar` name yields `false` with no
extractor invoked. -/
theorem extract_dispatch_compound_suffix_first (base : String) (out : Option String)
    (v : Option Verbosity) (open_ok : Bool) (status : Nat)
    (h1 : base ≠ "") (h2 : extension base ≠ ".tar") :
    extract_route (base ++ ".tar.gz") none v
      = some ⟨Extractor.tar_gz, base ++ ".tar.gz", some base, v⟩ ∧
    extract_route (base ++ ".bz2") none v
      = some ⟨Extractor.bz2, base ++ ".bz2", some base, v⟩ ∧
    extract (base ++ ".rar") out v open_ok status = (none, some false) := by
  have htar_ne : base ++ ".tar" ≠ "" := append_ne_empty_of_right base ".tar" (by decide)
  have e1 : (base ++ ".tar") ++ ".gz" = base ++ ".tar.gz" := by
    rw [string_append_assoc]
    exact congrArg (fun t => base ++ t) (by decide : ".tar" ++ ".gz" = ".tar.gz")
  obtain ⟨hgz_ext, hgz_stem⟩ := ext_stem_gz (base ++ ".tar") htar_ne
  obtain ⟨htar_ext, htar_stem⟩ := ext_stem_tar base h1
  obtain ⟨hbz_ext, hbz_stem⟩ := ext_stem_bz2 base h1
  obtain ⟨hrar_ext, _⟩ := ext_stem_rar base h1
  rw [e1] at hgz_ext hgz_stem
  refine ⟨?_, ?_, ?_⟩
  · unfold extract_route
    rw [hgz_ext, if_pos rfl, hgz_stem, htar_ext, if_pos rfl]
    simp [htar_stem, hgz_stem]
  · unfold extract_route
    rw [hbz_ext, if_neg (by decide), if_neg (by decide), if_pos rfl, hbz_stem,
      if_neg h2]
    simp [hbz_stem]
  · have hroute : extract_route (base ++ ".rar") out v = none := by
      unfold extract_route
      rw [hrar_ext, if_neg (by decide), if_neg (by decide), if_neg (by decide)]
    simp [extract, hroute]

theorem extract_dispatch_compound_suffix_first_witness :
    extract_route "archive.tar.gz" none none
      = some ⟨Extractor.tar_gz, "archive.tar.gz", some "archive", none⟩ ∧
    extract_route "archive.bz2" none none
      = some ⟨Extractor.bz2, "archive.bz2", some "archive", none⟩ ∧
    extract "archive.rar" none none true 0 = (none, some false) :=
  extract_dispatch_compound_suffix_first "archive" none none true 0
    (by decide) (by decide)

/-- C4 (counterexample): with destination `"d"` occupied by a
non-directory file, `mkdir` fails, yet `download_and_extract` still runs
the extraction step and returns its result (`true` here) — the
directory-creation sub-step's failure neither stops the pipeline nor
forces a `false` return, refuting the claim as stated. -/
theorem download_and_extract_ignores_mkdir_failure :
    (mkdir [("d", false)] "d").1 = false ∧
    download_and_extract "http://x/a.tar.gz" (some "d") none [("d", false)] true true 0
      = (some true,
         [Step.downloadStep "http://x/a.tar.gz" "a.tar.gz",
          Step.mkdirStep "d",
          Step.extractStep "a.tar.gz" (some "d")]) := by
  refine ⟨rfl, rfl⟩

/-- C4 (amended): `download_and_extract` derives the archive filename
from the URL's final path segment and returns `false` at a download
failure without executing any later sub-step; the directory-creation
sub-step's result is discarded, and extraction runs (and alone decides
the result) whenever the download succeeded, regardless of the
filesystem's state at the destination. -/
theorem download_and_extract_short_circuit_amended (url : String) (out : Option String)
    (v : Option Verbosity) (fs : FSState) (open_ok : Bool) (status : Nat) :
    download_and_extract url out v fs false open_ok status
        = (some false, [Step.downloadStep url (last_url_segment url)]) ∧
    (download_and_extract url out v fs true open_ok status).1
        = (extract (last_url_segment url)
            (some (out.getD (stem (stem (last_url_segment url))))) v open_ok status).2 ∧
    (download_and_extract url (some "destdir") v fs true open_ok status).2
        = [Step.downloadStep url (last_url_segment url), Step.mkdirStep "destdir",
           Step.extractStep (last_url_segment url) (some "destdir")] := by
  refine ⟨?_, ?_, ?_⟩ <;> simp [download_and_extract]

/-- C5: with the source strictly newer than the binary, the trampoline
runs exactly one recompilation (`c++ <source> -o <binary>`); only a
zero-status rebuild leads to replacing the process image with the binary
and the original arguments, a non-zero one aborts; with the source not
newer, nothing is recompiled and control returns. -/
theorem go_rebuild_urself_spec (argv : List String) (bp sp : String)
    (bt st rs : Nat) :
    (bt < st → (go_rebuild_urself argv bp sp bt st rs).2 = [rebuild_cmd sp bp]) ∧
    (bt < st → rs = 0 →
      (go_rebuild_urself argv bp sp bt st rs).1 = RebuildOutcome.execed bp argv) ∧
    (bt < st → rs ≠ 0 →
      (go_rebuild_urself argv bp sp bt st rs).1 = RebuildOutcome.aborted) ∧
    (st ≤ bt → go_rebuild_urself argv bp sp bt st rs = (RebuildOutcome.returned, [])) := by
  unfold go_rebuild_urself
  refine ⟨?_, ?_, ?_, ?_⟩
  · intro h
    rw [if_pos h]
    by_cases hrs : rs ≠ 0
    · rw [if_pos hrs]
    · rw [if_neg hrs]
  · intro h hrs
    rw [if_pos h, if_neg (by simp [hrs])]
  · intro h hrs
    rw [if_pos h, if_pos hrs]
  · intro h
    rw [if_neg (Nat.not_lt.mpr h)]

theorem go_rebuild_urself_spec_witness :
    (go_rebuild_urself ["nob"] "nob" "nob.cpp" 0 1 0).2 = [rebuild_cmd "nob.cpp" "nob"] ∧
    (go_rebuild_urself ["nob"] "nob" "nob.cpp" 0 1 0).1 = RebuildOutcome.execed "nob" ["nob"] ∧
    (go_rebuild_urself ["nob"] "nob" "nob.cpp" 0 1 3).1 = RebuildOutcome.aborted ∧
    go_rebuild_urself ["nob"] "nob" "nob.cpp" 5 4 0 = (RebuildOutcome.returned, []) :=
  ⟨(go_rebuild_urself_spec ["nob"] "nob" "nob.cpp" 0 1 0).1 (by decide),
   (go_rebuild_urself_spec ["nob"] "nob" "nob.cpp" 0 1 0).2.1 (by decide) rfl,
   (go_rebuild_urself_spec ["nob"] "nob" "nob.cpp" 0 1 3).2.2.1 (by decide) (by decide),
   (go_rebuild_urself_spec ["nob"] "nob" "nob.cpp" 5 4 0).2.2.2 (by decide)⟩

/-- C6: for any schedule of reads made of data chunks and transient
`EINTR` results followed by a zero-byte read, `run_sync_capture` appends
exactly the data bytes, in order, to the sink (`EINTR` reads are retried,
the zero-byte read ends the stream), and the single `waitpid` happens
only after the whole drain. -/
theorem run_sync_capture_drains_then_waits (c : Cmd) (evs : List CaptureEv)
    (ws : WaitStatus) (h : ∀ e ∈ evs, benign e = true) :
    Cmd.run_sync_capture c (evs ++ [CaptureEv.readEof]) ws
        = some (dataBytes evs, normalize_status ws,
            drainActs evs ++ [ParentAct.waitChild]) ∧
    ParentAct.waitChild ∉ drainActs evs := by
  constructor
  · unfold Cmd.run_sync_capture
    rw [drain_append_eof evs h]
    rfl
  · exact drainActs_no_wait evs

theorem run_sync_capture_drains_then_waits_witness :
    Cmd.run_sync_capture { m_command := ["cat", "f"] }
        [CaptureEv.readData [104, 105], CaptureEv.readEintr, CaptureEv.readData [10],
         CaptureEv.readEof]
        (WaitStatus.exited 0)
      = some ([104, 105, 10], 0,
          [ParentAct.readCall, ParentAct.appendOut [104, 105], ParentAct.readCall,
           ParentAct.readCall, ParentAct.appendOut [10], ParentAct.readCall,
           ParentAct.waitChild]) ∧
    ParentAct.waitChild ∉ drainActs
        [CaptureEv.readData [104, 105], CaptureEv.readEintr, CaptureEv.readData [10]] :=
  run_sync_capture_drains_then_waits { m_command := ["cat", "f"] }
    [CaptureEv.readData [104, 105], CaptureEv.readEintr, CaptureEv.readData [10]]
    (WaitStatus.exited 0) (by decide)

/-- C7: `reset()` followed by `add(x1..xn)` yields the argument sequence
exactly `[x1..xn]` and the default working directory, whatever the
instance previously held. -/
theorem reset_then_add_exact (c : Cmd) (xs : List String) :
    (Cmd.add (Cmd.reset c) xs).m_command = xs ∧
    (Cmd.add (Cmd.reset c) xs).m_working_dir = "." := by
  refine ⟨?_, rfl⟩
  simp [Cmd.add, Cmd.reset]

/-- C8: `mkdir` is idempotent: a successful call that leaves the path a
directory succeeds again on the same path; a path occupied by a
non-directory file makes the call fail, fail again on repetition, and
leave the filesystem unchanged both times. -/
theorem mkdir_idempotent (fs : FSState) (p : String) :
    ((mkdir fs p).1 = true → fs_lookup (mkdir fs p).2 p = some true →
      (mkdir (mkdir fs p).2 p).1 = true) ∧
    (fs_lookup fs p = some false →
      mkdir fs p = (false, fs) ∧ mkdir (mkdir fs p).2 p = (false, fs)) := by
  have hdir_case : ∀ (g : FSState), fs_lookup g p = some true → mkdir g p = (true, g) := by
    intro g hg
    unfold mkdir
    rw [hg]
  constructor
  · intro _ hdir
    rw [hdir_case (mkdir fs p).2 hdir]
  · intro hfile
    have h1 : mkdir fs p = (false, fs) := by
      unfold mkdir
      rw [hfile]
    refine ⟨h1, ?_⟩
    rw [h1]
    exact h1

theorem mkdir_idempotent_witness :
    (mkdir ([] : FSState) "build").1 = true ∧
    (mkdir (mkdir ([] : FSState) "build").2 "build").1 = true ∧
    mkdir [("nob.cpp", false)] "nob.cpp" = (false, [("nob.cpp", false)]) ∧
    mkdir (mkdir [("nob.cpp", false)] "nob.cpp").2 "nob.cpp"
      = (false, [("nob.cpp", false)]) := by
  refine ⟨?_, ?_, ?_, ?_⟩
  · exact (mkdir_idempotent ([] : FSState) "build").1 (by decide) (by decide) |>.symm ▸ by decide
  · exact (mkdir_idempotent ([] : FSState) "build").1 (by decide) (by decide)
  · exact ((mkdir_idempotent [("nob.cpp", false)] "nob.cpp").2 (by decide)).1
  · exact ((mkdir_idempotent [("nob.cpp", false)] "nob.cpp").2 (by decide)).2

/-- C9 (counterexample): a `Cmd` with a working directory set never
changes directory when run through `run_sync_capture` — its child's
action trace contains no chdir at all (while `run_sync`'s child does
chdir), refuting the claim that running the command (by either runner)
changes directory inside the child. -/
theorem run_sync_capture_child_never_chdirs :
    (Cmd.set_wd { m_command := ["ls"] } "subdir").m_working_dir = "subdir" ∧
    has_chdir (Cmd.run_sync_capture_child (Cmd.set_wd { m_command := ["ls"] } "subdir"))
      = false ∧
    has_chdir (Cmd.run_sync_child (Cmd.set_wd { m_command := ["ls"] } "subdir"))
      = true := by
  refine ⟨rfl, rfl, by decide⟩

/-- C9 (amended): the caller's working directory is unchanged by
`set_wd`, `run_sync` and `run_sync_capture`; `run_sync`'s child performs
the chdir after creation and before image replacement; but
`run_sync_capture` ignores the stored working directory entirely — its
child performs no chdir. -/
theorem working_dir_child_only_amended (c : Cmd) (cwd p : String)
    (h : c.m_working_dir ≠ ".") :
    Cmd.run_sync_child c
        = [ChildAction.chdir c.m_working_dir, ChildAction.exec c.m_command] ∧
    Cmd.run_sync_parent_cwd c cwd = cwd ∧
    Cmd.run_sync_capture_parent_cwd c cwd = cwd ∧
    (Cmd.set_wd c p).m_working_dir = p ∧
    has_chdir (Cmd.run_sync_capture_child c) = false := by
  refine ⟨?_, rfl, rfl, rfl, rfl⟩
  unfold Cmd.run_sync_child
  rw [if_pos h]
  rfl

theorem working_dir_child_only_amended_witness :
    Cmd.run_sync_child { m_command := ["make"], m_working_dir := "build" }
        = [ChildAction.chdir "build", ChildAction.exec ["make"]] ∧
    Cmd.run_sync_parent_cwd { m_command := ["make"], m_working_dir := "build" } "/home" = "/home" ∧
    Cmd.run_sync_capture_parent_cwd { m_command := ["make"], m_working_dir := "build" } "/home" = "/home" ∧
    (Cmd.set_wd { m_command := ["make"], m_working_dir := "build" } "src").m_working_dir = "src" ∧
    has_chdir (Cmd.run_sync_capture_child { m_command := ["make"], m_working_dir := "build" }) = false :=
  working_dir_child_only_amended { m_command := ["make"], m_working_dir := "build" }
    "/home" "src" (by decide)

/-- C10: the tar command `extract_tar_gz` builds is the same for every
destination argument — `tar -x -z`, optionally `-v`, then `-f` and the
archive path — and contains no `-C` destination option, so the
destination has no effect on where a compressed tar archive is
extracted. -/
theorem extract_tar_gz_cmd_ignores_destination (archive : String)
    (out1 out2 : Option String) (v : Option Verbosity) (status : Nat)
    (h : archive ≠ "-C") :
    (extract_tar_gz archive out1 v status).1 = (extract_tar_gz archive out2 v status).1 ∧
    (extract_tar_gz archive out1 v status).1.m_command
        = ["tar", "-x", "-z"]
          ++ (match v with | some Verbosity.Verbose => ["-v"] | _ => [])
          ++ ["-f", archive] ∧
    "-C" ∉ (extract_tar_gz archive out1 v status).1.m_command := by
  refine ⟨rfl, ?_, ?_⟩
  · cases v with
    | none => rfl
    | some vv => cases vv <;> rfl
  · have hne : ¬ "-C" = archive := fun he => h he.symm
    cases v with
    | none => simp [extract_tar_gz, Cmd.add, hne]
    | some vv => cases vv <;> simp [extract_tar_gz, Cmd.add, hne]

theorem extract_tar_gz_cmd_ignores_destination_witness :
    (extract_tar_gz "a.tar.gz" (some "d") (some Verbosity.Verbose) 0).1
        = (extract_tar_gz "a.tar.gz" none (some Verbosity.Verbose) 0).1 ∧
    (extract_tar_gz "a.tar.gz" (some "d") (some Verbosity.Verbose) 0).1.m_command
        = ["tar", "-x", "-z"]
          ++ (match (some Verbosity.Verbose : Option Verbosity) with
              | some Verbosity.Verbose => ["-v"] | _ => [])
          ++ ["-f", "a.tar.gz"] ∧
    "-C" ∉ (extract_tar_gz "a.tar.gz" (some "d") (some Verbosity.Verbose) 0).1.m_command :=
  extract_tar_gz_cmd_ignores_destination "a.tar.gz" (some "d") none
    (some Verbosity.Verbose) 0 (by decide)

end Nob
